import Mathlib

/-!
Verification development for a Go MP4 temporal-clip library.

The library decodes an MP4 stream (ftyp, moov with its sample-table boxes,
mdat), and rewrites the moov sample tables so that the movie is restricted
to a time range.  This file gives a shallow embedding of the relevant Go
functions and proves or refutes the specification claims about them.

Modelling conventions:
- Go uint32 arithmetic is modelled on Nat with explicit reduction mod 2^32
  (wadd / wsub / wrap32 below).
- Go int / int64 arithmetic (time.Duration values) is modelled on Int; the
  theorems only instantiate it inside the int64 range.
- A Go index-out-of-range read (which panics at run time) is modelled by a
  defaulted read (List.getD _ 0); the safety claim about sample-size lookups
  is analysed separately with an Option-returning read that yields none
  exactly where Go panics.
-/

namespace Mp4Clip

/-- Reduce a value to Go uint32 range. -/
def wrap32 (n : Nat) : Nat := n % 4294967296

/-- Go uint32 addition. -/
def wadd (a b : Nat) : Nat := (a + b) % 4294967296

/-- Go uint32 subtraction, wrapping around on underflow. -/
def wsub (a b : Nat) : Nat := (a + (4294967296 - b % 4294967296)) % 4294967296

/-- Go conversion uint32(x) of an int value x (two's complement low 32 bits). -/
def wrapInt (x : Int) : Nat := (x % 4294967296).toNat

/-!
Sample-table rewrite loops of updateSamples (clip filter source).

The Go source walks the old stts (and, with identical code, ctts) run list
with a uint32 cursor `sample`, while `sample < lastSample`, and emits a run
whenever `sample+count >= firstSample`, adjusting the emitted count by
`sample - firstSample` (when the run straddles firstSample) and by
`lastSample - sample - count` (when the run extends past lastSample), all in
uint32 arithmetic.
-/

/-- The stts / ctts run-clipping loop of updateSamples.  `first` and `last`
are the selected 1-based sample numbers; `s` is the running uint32 sample
cursor (0 at the first call).  Returns the rewritten (counts, deltas). -/
def clipRuns (first last : Nat) : List Nat → List Nat → Nat → List Nat × List Nat
  | c :: cs, d :: ds, s =>
    if s < last then
      let rest := clipRuns first last cs ds (wadd s c)
      if first ≤ wadd s c then
        let cur0 := if s < first ∧ first < wadd s c then wadd c (wsub s first) else c
        let cur := if last < wadd s c then wadd cur0 (wsub (wsub last s) c) else cur0
        (cur :: rest.1, d :: rest.2)
      else rest
    else ([], [])
  | _, _, _ => ([], [])

/-- The stss keyframe rewrite loop of updateSamples: keep sample numbers in
[first, last], emitting n - first in uint32 arithmetic. -/
def stssClip (first last : Nat) (ns : List Nat) : List Nat :=
  (ns.filter fun n => first ≤ n && n ≤ last).map fun n => wsub n first

/-- The stsz rewrite loop of updateSamples: keep sizes whose 0-based index n
satisfies first-1 <= n <= last-1, both bounds computed in uint32 arithmetic. -/
def stszClip (first last : Nat) (sizes : List Nat) : List Nat :=
  ((sizes.enum.filter fun p => wsub first 1 ≤ p.1 && p.1 ≤ wsub last 1).map fun p => p.2)

/-- One way to state the spec's intended clipped count for a run starting at
cursor s with `count` samples: the number of 1-based sample numbers of the
run (s+1 .. s+count) lying in [first, last].  Written from the spec text, for
comparison with the source's clipRuns. -/
def specRunIntersection (s count first last : Nat) : Nat :=
  min (s + count) last - max s (first - 1)

/-!
Structural model of the moov tree (the fields the clip engine reads and
writes, plus whatever the Size methods need).  Boxes the engine treats as
opaque blobs are modelled by the length of their undecoded payload, which is
all their Size methods use.
-/

structure SttsBox where
  sampleCount : List Nat
  sampleTimeDelta : List Nat
deriving DecidableEq

structure StssBox where
  sampleNumber : List Nat
deriving DecidableEq

structure StscBox where
  firstChunk : List Nat
  samplesPerChunk : List Nat
  sampleDescriptionID : List Nat
deriving DecidableEq

structure StszBox where
  sampleUniformSize : Nat
  sampleNumber : Nat
  sampleSize : List Nat
deriving DecidableEq

structure StcoBox where
  chunkOffset : List Nat
deriving DecidableEq

structure CttsBox where
  sampleCount : List Nat
  sampleOffset : List Nat
deriving DecidableEq

/-- stbl container: stsd is opaque (length of its undecoded payload). -/
structure StblBox where
  stsdNotDecodedLen : Nat
  stts : SttsBox
  stss : Option StssBox
  stsc : StscBox
  stsz : StszBox
  stco : StcoBox
  ctts : Option CttsBox
deriving DecidableEq

structure MdhdBox where
  timescale : Nat
  duration : Nat
deriving DecidableEq

/-- minf container: vmhd and smhd are fixed-size and opaque, dinf and hdlr
are opaque with one variable-length payload each. -/
structure MinfBox where
  vmhd : Bool
  smhd : Bool
  stbl : StblBox
  dinfDrefNotDecodedLen : Option Nat
  hdlrTrackNameLen : Option Nat
deriving DecidableEq

structure MdiaBox where
  mdhd : MdhdBox
  hdlrTrackNameLen : Option Nat
  minf : MinfBox
deriving DecidableEq

structure TkhdBox where
  duration : Nat
deriving DecidableEq

structure TrakBox where
  tkhd : TkhdBox
  edtsElstEntries : Option Nat
  mdia : MdiaBox
deriving DecidableEq

structure MvhdBox where
  timescale : Nat
  duration : Nat
  notDecodedLen : Nat
deriving DecidableEq

structure MoovBox where
  mvhd : MvhdBox
  iodsNotDecodedLen : Option Nat
  trak : List TrakBox
  udtaMetaNotDecodedLen : Option Nat
deriving DecidableEq

/-!
Size methods (box.go).  BoxHeaderSize is 8; each formula mirrors the
corresponding Go Size method.
-/

def sttsSize (b : SttsBox) : Nat := 8 + 8 + b.sampleCount.length * 8

def stssSize (b : StssBox) : Nat := 8 + 8 + b.sampleNumber.length * 4

def stscSize (b : StscBox) : Nat := 8 + 8 + b.firstChunk.length * 12

def stszSize (b : StszBox) : Nat := 8 + 12 + b.sampleSize.length * 4

def stcoSize (b : StcoBox) : Nat := 8 + 8 + b.chunkOffset.length * 4

def cttsSize (b : CttsBox) : Nat := 8 + 8 + b.sampleCount.length * 8

def stblSize (b : StblBox) : Nat :=
  (8 + 4 + b.stsdNotDecodedLen) + sttsSize b.stts +
    (match b.stss with | none => 0 | some s => stssSize s) +
    stscSize b.stsc + stszSize b.stsz + stcoSize b.stco +
    (match b.ctts with | none => 0 | some c => cttsSize c) + 8

def minfSize (b : MinfBox) : Nat :=
  (if b.vmhd then 8 + 12 else 0) + (if b.smhd then 8 + 8 else 0) + stblSize b.stbl +
    (match b.dinfDrefNotDecodedLen with | none => 0 | some n => 8 + (8 + 4 + n)) +
    (match b.hdlrTrackNameLen with | none => 0 | some n => 8 + 24 + n) + 8

def mdiaSize (b : MdiaBox) : Nat :=
  (8 + 24) + (match b.hdlrTrackNameLen with | none => 0 | some n => 8 + 24 + n) +
    minfSize b.minf + 8

def trakSize (b : TrakBox) : Nat :=
  (8 + 84) + mdiaSize b.mdia +
    (match b.edtsElstEntries with | none => 0 | some n => 8 + (8 + 8 + n * 12)) + 8

def moovSize (b : MoovBox) : Nat :=
  (8 + 26 + b.mvhd.notDecodedLen) +
    (match b.iodsNotDecodedLen with | none => 0 | some n => 8 + n) +
    (b.trak.map trakSize).sum +
    (match b.udtaMetaNotDecodedLen with | none => 0 | some n => 8 + (8 + 4 + n)) + 8

/-!
SttsBox.GetTimeCode: walk the run list accumulating units in uint32
arithmetic, then convert ticks to nanoseconds via 1s * units / timescale
(int64 arithmetic, exact for uint32 inputs).  The Go loop decrements sample
first (callers always pass a 1-based sample number of at least 1) and would
index past the run list if asked for a sample beyond the table plus one; the
model returns the accumulated units in that case.
-/

def getTimeCodeLoop : List Nat → List Nat → Nat → Nat → Nat
  | c :: cs, d :: ds, s, units =>
    if s = 0 then units
    else if c ≤ s then getTimeCodeLoop cs ds (s - c) (wadd units (c * d))
    else wadd units (s * d)
  | _, _, _, units => units

def getTimeCode (b : SttsBox) (sample timescale : Nat) : Nat :=
  1000000000 * getTimeCodeLoop b.sampleCount b.sampleTimeDelta (sample - 1) 0 / timescale

/-!
StszBox.GetSampleSize: the Go source returns the uniform size when
i > len(SampleSize), and otherwise reads SampleSize[i-1].  For i = 0 the Go
read is at index -1, an out-of-range panic; the total model below returns 0
there, and the Option model returns none exactly where Go panics.
-/

def getSampleSize (b : StszBox) (i : Nat) : Nat :=
  if b.sampleSize.length < i then b.sampleUniformSize
  else if i = 0 then 0
  else b.sampleSize.getD (i - 1) 0

def getSampleSizeOpt (b : StszBox) (i : Nat) : Option Nat :=
  if b.sampleSize.length < i then some b.sampleUniformSize
  else if i = 0 then none
  else b.sampleSize.get? (i - 1)

/-- The sample-size collection loop for one chunk in buildChunkList (the Go
loop reads GetSampleSize(ssi) for spc consecutive values of the running
index ssi), with the Option-returning read. -/
def chunkSizesOpt (b : StszBox) (ssi spc : Nat) : Option (List Nat) :=
  (List.range spc).mapM fun j => getSampleSizeOpt b (ssi + j)

/-!
Chunk records and buildChunkList.
-/

structure Chunk where
  track : Nat
  index : Nat
  firstTC : Nat
  lastTC : Nat
  descriptionID : Nat
  oldOffset : Nat
  samples : List Nat
  firstSample : Nat
  lastSample : Nat
  skip : Bool
deriving DecidableEq

/-- chunk.size: uint32 sum of the chunk's sample sizes. -/
def chunkSize (c : Chunk) : Nat := c.samples.foldl wadd 0

def buildChunkListLoop (tnum : Nat) (stsz : StszBox) (stsc : StscBox) (stts : SttsBox)
    (timescale : Nat) : List Nat → Nat → Nat → Nat → List Chunk
  | [], _, _, _ => []
  | off :: offs, i, sci, ssi =>
    let index := i + 1
    let sci' := if sci < stsc.firstChunk.length - 1 ∧ stsc.firstChunk.getD (sci + 1) 0 ≤ index
      then sci + 1 else sci
    let spc := stsc.samplesPerChunk.getD sci' 0
    let samples := (List.range spc).map fun j => getSampleSize stsz (ssi + j)
    let ssi' := ssi + spc
    { track := tnum, index := index, oldOffset := off, samples := samples,
      firstSample := ssi + 1, firstTC := getTimeCode stts (ssi + 1) timescale,
      lastSample := ssi' + 1, lastTC := getTimeCode stts (ssi' + 1) timescale,
      descriptionID := stsc.sampleDescriptionID.getD sci' 0, skip := false } ::
      buildChunkListLoop tnum stsz stsc stts timescale offs (i + 1) sci' ssi'

def buildChunkList (tnum : Nat) (t : TrakBox) : List Chunk :=
  buildChunkListLoop tnum t.mdia.minf.stbl.stsz t.mdia.minf.stbl.stsc t.mdia.minf.stbl.stts
    t.mdia.mdhd.timescale t.mdia.minf.stbl.stco.chunkOffset 0 0 0

/-- mdat.firstSample: first chunk of the track whose time interval contains
the timecode; 0 when none does. -/
def mdatFirstSample : List Chunk → Nat → Int → Nat
  | [], _, _ => 0
  | c :: cs, tnum, tc =>
    if c.track = tnum ∧ (c.firstTC : Int) ≤ tc ∧ tc ≤ (c.lastTC : Int) then c.firstSample
    else mdatFirstSample cs tnum tc

/-- mdat.lastSample, same search returning the chunk's lastSample field. -/
def mdatLastSample : List Chunk → Nat → Int → Nat
  | [], _, _ => 0
  | c :: cs, tnum, tc =>
    if c.track = tnum ∧ (c.firstTC : Int) ≤ tc ∧ tc ≤ (c.lastTC : Int) then c.lastSample
    else mdatLastSample cs tnum tc

/-- updateSamples on the sample tables of one track, given the selected
first and last sample numbers: stts and ctts through the identical
run-clipping loop, stss filtered and renumbered, stsz filtered by index. -/
def updateSamplesTables (stbl : StblBox) (first last : Nat) : StblBox :=
  { stbl with
    stts := { sampleCount := (clipRuns first last stbl.stts.sampleCount stbl.stts.sampleTimeDelta 0).1,
              sampleTimeDelta := (clipRuns first last stbl.stts.sampleCount stbl.stts.sampleTimeDelta 0).2 },
    stss := stbl.stss.map fun b => { sampleNumber := stssClip first last b.sampleNumber },
    stsz := { stbl.stsz with sampleSize := stszClip first last stbl.stsz.sampleSize },
    ctts := stbl.ctts.map fun b =>
      { sampleCount := (clipRuns first last b.sampleCount b.sampleOffset 0).1,
        sampleOffset := (clipRuns first last b.sampleCount b.sampleOffset 0).2 } }

/-!
updateChunks: mark chunks outside [begin, end] as skipped, rebuild stsc from
the surviving chunks (note the source emits each new entry with the
samples-per-chunk and description id of the PREVIOUS run's first chunk), and
reallocate stco with one zero slot per surviving chunk.
-/

def updateChunksLoop (beginTc endTc : Int) :
    List Chunk → Nat → Option Chunk → List Chunk × List (Nat × Nat × Nat) × Nat
  | [], index, _ => ([], [], index)
  | c :: cs, index, fc =>
    if endTc < (c.firstTC : Int) ∨ (c.lastTC : Int) < beginTc then
      let r := updateChunksLoop beginTc endTc cs index fc
      ({ c with skip := true } :: r.1, r.2.1, r.2.2)
    else
      let index' := index + 1
      let fc0 := match fc with | none => c | some f => f
      if index' = 1 ∨ c.samples.length ≠ fc0.samples.length ∨ c.descriptionID ≠ fc0.descriptionID then
        let r := updateChunksLoop beginTc endTc cs index' (some c)
        (c :: r.1, (index', fc0.samples.length, fc0.descriptionID) :: r.2.1, r.2.2)
      else
        let r := updateChunksLoop beginTc endTc cs index' (some fc0)
        (c :: r.1, r.2.1, r.2.2)

def updateChunks (beginTc endTc : Int) (t : TrakBox) (cs : List Chunk) : TrakBox × List Chunk :=
  let r := updateChunksLoop beginTc endTc cs 0 none
  ({ t with
      mdia.minf.stbl.stsc :=
        { firstChunk := r.2.1.map fun e => e.1,
          samplesPerChunk := r.2.1.map fun e => e.2.1,
          sampleDescriptionID := r.2.1.map fun e => e.2.2 },
      mdia.minf.stbl.stco := { chunkOffset := List.replicate r.2.2 0 } }, r.1)

/-!
updateDurations: per-track folds over the chunk list.  The Go folds start
from 0 and re-enter the "unset" branch whenever the accumulator is 0.
Durations are stored through uint32 conversion; Go computes the difference
in int64, which agrees with the Nat model whenever end is at least start
(always the case for chunk lists produced by buildChunkList).
-/

def durStart : List Chunk → Nat → Nat → Nat
  | [], _, s => s
  | c :: cs, tnum, s =>
    if c.track ≠ tnum ∨ c.skip then durStart cs tnum s
    else durStart cs tnum (if s = 0 ∨ c.firstTC < s then c.firstTC else s)

def durEnd : List Chunk → Nat → Nat → Nat
  | [], _, e => e
  | c :: cs, tnum, e =>
    if c.track ≠ tnum ∨ c.skip then durEnd cs tnum e
    else durEnd cs tnum (if e = 0 ∨ e < c.lastTC then c.lastTC else e)

def trakSetDurations (mvhdTimescale : Nat) (chunks : List Chunk) (tnum : Nat)
    (t : TrakBox) : TrakBox :=
  let start := durStart chunks tnum 0
  let endv := durEnd chunks tnum 0
  { t with
      mdia.mdhd.duration := wrap32 ((endv - start) * t.mdia.mdhd.timescale / 1000000000),
      tkhd.duration := wrap32 ((endv - start) * mvhdTimescale / 1000000000) }

def updateDurationsLoop (mvhdTimescale : Nat) (chunks : List Chunk) :
    List TrakBox → Nat → Nat → List TrakBox × Nat
  | [], _, acc => ([], acc)
  | t :: ts, tnum, acc =>
    let t' := trakSetDurations mvhdTimescale chunks tnum t
    let acc' := if acc < t'.tkhd.duration then t'.tkhd.duration else acc
    let r := updateDurationsLoop mvhdTimescale chunks ts (tnum + 1) acc'
    (t' :: r.1, r.2)

def updateDurations (m : MoovBox) (chunks : List Chunk) : MoovBox :=
  let r := updateDurationsLoop m.mvhd.timescale chunks m.trak 0 0
  { m with trak := r.1, mvhd.duration := r.2 }

/-!
sort.Sort(f.chunks) by ascending oldOffset.  Go's sort is unstable; the
insertion sort below agrees with it whenever the offsets are distinct, which
holds for every input used in this development.
-/

def insertByOffset (c : Chunk) : List Chunk → List Chunk
  | [] => [c]
  | d :: ds => if c.oldOffset < d.oldOffset then c :: d :: ds else d :: insertByOffset c ds

def sortChunks : List Chunk → List Chunk
  | [] => []
  | c :: cs => insertByOffset c (sortChunks cs)

/-!
updateChunkOffsets: one pass over the globally sorted chunk list.  The base
offset latches, at the first chunk whose computed base is nonzero, onto that
chunk's oldOffset plus the moov size delta (converted to uint32); retained
chunks are assigned offset + running size into their track's stco, and the
running size (the returned mdat payload size) accumulates retained chunk
sizes.  The per-track stco arrays (preallocated by updateChunks with exactly
one slot per retained chunk) are modelled as lists extended in write order.
-/

def updateChunkOffsetsLoop (delta : Int) :
    List Chunk → Nat → Nat → (Nat → List Nat) → (Nat → List Nat) × Nat
  | [], _, sz, acc => (acc, sz)
  | c :: cs, offset, sz, acc =>
    let offset := if offset = 0 then wrapInt ((c.oldOffset : Int) + delta) else offset
    if c.skip then updateChunkOffsetsLoop delta cs offset sz acc
    else
      updateChunkOffsetsLoop delta cs offset (wadd sz (chunkSize c))
        fun t => if t = c.track then acc t ++ [wadd offset sz] else acc t

def setStcoLoop (acc : Nat → List Nat) : List TrakBox → Nat → List TrakBox
  | [], _ => []
  | t :: ts, i =>
    { t with mdia.minf.stbl.stco := { chunkOffset := acc i } } :: setStcoLoop acc ts (i + 1)

/-!
Clip and FilterMoov.  Clip records begin and begin+duration in nanoseconds
and flags begin < 0; FilterMoov rejects begin past the movie duration,
clamps the end, and runs the per-track rewrites followed by duration and
offset updates.  All Go time.Duration arithmetic is int64; it is modelled
exactly on Int (the theorems only use values far inside the int64 range).
-/

inductive ClipErr where
  | clipOutside
  | invalidDuration
deriving DecidableEq

structure FilterResult where
  moov : MoovBox
  mdatSize : Nat
  chunks : List Chunk
  beginNs : Int
  endNs : Int
deriving DecidableEq

def processTrak (beginTc endTc : Int) (tnum : Nat) (t : TrakBox) : TrakBox × List Chunk :=
  let cs := buildChunkList tnum t
  let first := mdatFirstSample cs tnum beginTc
  let last := mdatLastSample cs tnum endTc
  let t1 := { t with mdia.minf.stbl := updateSamplesTables t.mdia.minf.stbl first last }
  updateChunks beginTc endTc t1 cs

def processTraks (beginTc endTc : Int) : List TrakBox → Nat → List TrakBox × List Chunk
  | [], _ => ([], [])
  | t :: ts, tnum =>
    let r := processTrak beginTc endTc tnum t
    let rest := processTraks beginTc endTc ts (tnum + 1)
    (r.1 :: rest.1, r.2 ++ rest.2)

def movieDurNs (m : MoovBox) : Nat := 1000000000 * m.mvhd.duration / m.mvhd.timescale

def filterMoov (beginSec durationSec : Int) (m : MoovBox) : Except ClipErr FilterResult :=
  if beginSec < 0 then .error .clipOutside
  else
    let beginNs : Int := beginSec * 1000000000
    let endNs0 : Int := (beginSec + durationSec) * 1000000000
    let movieNs : Int := (movieDurNs m : Int)
    if movieNs < beginNs then .error .clipOutside
    else
      let endNs := if movieNs < endNs0 ∨ endNs0 = beginNs then movieNs else endNs0
      let oldSize := moovSize m
      let pr := processTraks beginNs endNs m.trak 0
      let m2 := updateDurations { m with trak := pr.1 } pr.2
      let sorted := sortChunks pr.2
      let delta : Int := (moovSize m2 : Int) - (oldSize : Int)
      let upd := updateChunkOffsetsLoop delta sorted 0 0 fun _ => []
      let m3 := { m2 with trak := setStcoLoop upd.1 m2.trak 0 }
      .ok { moov := m3, mdatSize := upd.2, chunks := sorted,
            beginNs := beginNs, endNs := endNs }

/-!
Spec-side definitions, written from the specification text, used to compare
the source behaviour against what the claims state.
-/

/-- Total number of samples implied by stsc runs over a given number of
chunks: each run (firstChunk, samplesPerChunk) covers the chunks up to the
next run's firstChunk (exclusive), the last run up to the final chunk. -/
def stscImplied (numChunks : Nat) : List Nat → List Nat → Nat
  | f :: fs, s :: ss =>
    (match fs with | f2 :: _ => f2 - f | [] => numChunks + 1 - f) * s +
      stscImplied numChunks fs ss
  | _, _ => 0

/-- Retained (non-skipped) chunks of one track, in list order. -/
def retainedOfTrack (chunks : List Chunk) (tnum : Nat) : List Chunk :=
  chunks.filter fun c => c.track == tnum && !c.skip

/-- Spec-side offset assignment over the globally sorted chunk list: given a
base offset F, every retained chunk is paired with its track and receives
F plus the running uint32 size of the retained chunks before it, which is
exactly contiguous packing from F. -/
def specAssign (F : Nat) : List Chunk → Nat → List (Nat × Nat)
  | [], _ => []
  | c :: cs, sz =>
    if c.skip then specAssign F cs sz
    else (c.track, wadd F sz) :: specAssign F cs (wadd sz (chunkSize c))

/-- Minimum firstTC over a chunk list (0 when empty), from the spec text
of the duration recomputation. -/
def minFirstTC : List Chunk → Nat
  | [] => 0
  | c :: cs => (cs.map fun x => x.firstTC).foldl min c.firstTC

/-- Maximum lastTC over a chunk list, from the spec text. -/
def maxLastTC (cs : List Chunk) : Nat := (cs.map fun c => c.lastTC).foldl max 0

/-!
Concrete movies used as inputs for the claims.  The stbl contents are the
interesting part; the opaque boxes get arbitrary small payload lengths.
-/

def stdMinf (stbl : StblBox) : MinfBox :=
  { vmhd := true, smhd := false, stbl := stbl,
    dinfDrefNotDecodedLen := some 12, hdlrTrackNameLen := none }

def mkTrak (ts : Nat) (stbl : StblBox) : TrakBox :=
  { tkhd := { duration := 0 }, edtsElstEntries := none,
    mdia := { mdhd := { timescale := ts, duration := 0 }, hdlrTrackNameLen := some 4,
              minf := stdMinf stbl } }

/-- A single retained chunk used as a witness input. -/
def chunkA : Chunk :=
  { track := 0, index := 1, firstTC := 0, lastTC := 1, descriptionID := 1,
    oldOffset := 100, samples := [7], firstSample := 1, lastSample := 2, skip := false }

/-- A retained chunk with positive firstTC, witness input for the duration
theorem. -/
def chunkB : Chunk :=
  { track := 0, index := 1, firstTC := 5, lastTC := 9, descriptionID := 1,
    oldOffset := 100, samples := [2], firstSample := 1, lastSample := 2, skip := false }

/-- An arbitrary track value used as a getD default in witnesses. -/
def trakA : TrakBox :=
  mkTrak 1
    { stsdNotDecodedLen := 0, stts := { sampleCount := [], sampleTimeDelta := [] },
      stss := none, stsc := { firstChunk := [], samplesPerChunk := [], sampleDescriptionID := [] },
      stsz := { sampleUniformSize := 0, sampleNumber := 0, sampleSize := [] },
      stco := { chunkOffset := [] }, ctts := none }

/-- Single-track movie: timescale 1, three one-second samples in one chunk
at offset 100, per-sample stsz table. -/
def M1 : MoovBox :=
  { mvhd := { timescale := 1, duration := 3, notDecodedLen := 0 },
    iodsNotDecodedLen := none,
    trak := [mkTrak 1
      { stsdNotDecodedLen := 16,
        stts := { sampleCount := [3], sampleTimeDelta := [1] },
        stss := none,
        stsc := { firstChunk := [1], samplesPerChunk := [3], sampleDescriptionID := [1] },
        stsz := { sampleUniformSize := 0, sampleNumber := 3, sampleSize := [10, 10, 10] },
        stco := { chunkOffset := [100] },
        ctts := none }],
    udtaMetaNotDecodedLen := none }

/-- Single-track movie: timescale 1, four one-second samples in two chunks
of two samples each, at offsets 100 and 200. -/
def M2 : MoovBox :=
  { mvhd := { timescale := 1, duration := 4, notDecodedLen := 0 },
    iodsNotDecodedLen := none,
    trak := [mkTrak 1
      { stsdNotDecodedLen := 16,
        stts := { sampleCount := [4], sampleTimeDelta := [1] },
        stss := none,
        stsc := { firstChunk := [1], samplesPerChunk := [2], sampleDescriptionID := [1] },
        stsz := { sampleUniformSize := 0, sampleNumber := 4, sampleSize := [1, 1, 1, 1] },
        stco := { chunkOffset := [100, 200] },
        ctts := none }],
    udtaMetaNotDecodedLen := none }

end Mp4Clip

/-!
Byte-level box codec (box.go and mp4.go).  Bytes are Nat values below 256;
a reader is a List Nat consumed from the front.  The decoder registry, the
header codec, the container decoder and the top-level Decode of mp4.go are
embedded; index-out-of-range reads on malformed bodies follow the defaulted
read convention of the header comment.
-/

namespace Mp4Box

/-- Big-endian u32 read at an offset. -/
def be32At (l : List Nat) (off : Nat) : Nat :=
  l.getD off 0 * 16777216 + l.getD (off + 1) 0 * 65536 + l.getD (off + 2) 0 * 256 +
    l.getD (off + 3) 0

/-- Big-endian u16 read at an offset. -/
def be16At (l : List Nat) (off : Nat) : Nat := l.getD off 0 * 256 + l.getD (off + 1) 0

/-- Big-endian u32 write. -/
def putBE32 (n : Nat) : List Nat :=
  [n / 16777216 % 256, n / 65536 % 256, n / 256 % 256, n % 256]

/-- Big-endian u16 write. -/
def putBE16 (n : Nat) : List Nat := [n / 256 % 256, n % 256]

/-- 4-byte ASCII type codes of the decoder registry. -/
def ftypT : List Nat := [102, 116, 121, 112]

def moovT : List Nat := [109, 111, 111, 118]

def mvhdT : List Nat := [109, 118, 104, 100]

def iodsT : List Nat := [105, 111, 100, 115]

def trakT : List Nat := [116, 114, 97, 107]

def udtaT : List Nat := [117, 100, 116, 97]

def tkhdT : List Nat := [116, 107, 104, 100]

def edtsT : List Nat := [101, 100, 116, 115]

def elstT : List Nat := [101, 108, 115, 116]

def mdiaT : List Nat := [109, 100, 105, 97]

def minfT : List Nat := [109, 105, 110, 102]

def mdhdT : List Nat := [109, 100, 104, 100]

def hdlrT : List Nat := [104, 100, 108, 114]

def vmhdT : List Nat := [118, 109, 104, 100]

def smhdT : List Nat := [115, 109, 104, 100]

def dinfT : List Nat := [100, 105, 110, 102]

def drefT : List Nat := [100, 114, 101, 102]

def stblT : List Nat := [115, 116, 98, 108]

def stcoT : List Nat := [115, 116, 99, 111]

def stscT : List Nat := [115, 116, 115, 99]

def stszT : List Nat := [115, 116, 115, 122]

def cttsT : List Nat := [99, 116, 116, 115]

def stsdT : List Nat := [115, 116, 115, 100]

def sttsT : List Nat := [115, 116, 116, 115]

def stssT : List Nat := [115, 116, 115, 115]

def metaT : List Nat := [109, 101, 116, 97]

def mdatT : List Nat := [109, 100, 97, 116]

/-- Error values surfaced by the decoder (outOfFuel is an artefact of the
fuelled embedding and is never produced with the fuel Decode passes). -/
inductive GoErr where
  | eof
  | truncatedHeader
  | badFormat
  | unknownBoxType
  | outOfFuel
deriving DecidableEq

structure BoxHeader where
  type : List Nat
  size : Nat
deriving DecidableEq

/-- DecodeHeader: read 8 bytes in one shot; an empty reader is EOF, fewer
than 8 remaining bytes is a truncated header.  No size value is rejected. -/
def decodeHeader : List Nat → Except GoErr (BoxHeader × List Nat)
  | [] => .error .eof
  | b0 :: b1 :: b2 :: b3 :: b4 :: b5 :: b6 :: b7 :: rest =>
    .ok ({ type := [b4, b5, b6, b7],
           size := b0 * 16777216 + b1 * 65536 + b2 * 256 + b3 }, rest)
  | _ => .error .truncatedHeader

/-- The decoded box values. -/
inductive BoxVal where
  | ftyp (majorBrand minorVersion : List Nat) (compatibleBrands : List (List Nat))
  | mvhd (version : Nat) (flags : List Nat)
      (creationTime modificationTime timescale duration rate volume : Nat)
      (notDecoded : List Nat)
  | iods (notDecoded : List Nat)
  | tkhd (version : Nat) (flags : List Nat)
      (creationTime modificationTime trackId duration layer alternateGroup volume : Nat)
      (matrix : List Nat) (width height : Nat)
  | elst (version : Nat) (flags : List Nat)
      (segmentDuration mediaTime mediaRateInteger mediaRateFraction : List Nat)
  | mdhd (version : Nat) (flags : List Nat)
      (creationTime modificationTime timescale duration language : Nat)
  | hdlr (version : Nat) (flags : List Nat) (preDefined : Nat)
      (handlerType trackName : List Nat)
  | vmhd (version : Nat) (flags : List Nat) (graphicsMode : Nat) (opColor : List Nat)
  | smhd (version : Nat) (flags : List Nat) (balance : Nat)
  | dref (version : Nat) (flags : List Nat) (notDecoded : List Nat)
  | stsd (version : Nat) (flags : List Nat) (notDecoded : List Nat)
  | stts (version : Nat) (flags : List Nat) (sampleCount sampleTimeDelta : List Nat)
  | stss (version : Nat) (flags : List Nat) (sampleNumber : List Nat)
  | stsc (version : Nat) (flags : List Nat)
      (firstChunk samplesPerChunk sampleDescriptionID : List Nat)
  | stsz (version : Nat) (flags : List Nat) (sampleUniformSize sampleNumber : Nat)
      (sampleSize : List Nat)
  | stco (version : Nat) (flags : List Nat) (chunkOffset : List Nat)
  | ctts (version : Nat) (flags : List Nat) (sampleCount sampleOffset : List Nat)
  | meta (version : Nat) (flags : List Nat) (notDecoded : List Nat)
  | mdat
  | moov (mvhd iods : Option BoxVal) (trak : List BoxVal) (udta : Option BoxVal)
  | trak (tkhd mdia edts : Option BoxVal)
  | edts (elst : Option BoxVal)
  | mdia (mdhd hdlr minf : Option BoxVal)
  | minf (vmhd smhd stbl dinf hdlr : Option BoxVal)
  | stbl (stsd stts stss stsc stsz stco ctts : Option BoxVal)
  | dinf (dref : Option BoxVal)
  | udta (meta : Option BoxVal)

/-- DecodeFtyp.  The Go loop walks the brand area in 4-byte steps; the model
takes the whole 4-byte groups (Go would panic on a ragged tail). -/
def decodeFtyp (data : List Nat) : Except GoErr BoxVal :=
  .ok (.ftyp (data.take 4) ((data.drop 4).take 4)
    (if 8 < data.length then
      (List.range ((data.length - 8) / 4)).map fun i => (data.drop (8 + 4 * i)).take 4
    else []))

def decodeMvhd (data : List Nat) : Except GoErr BoxVal :=
  .ok (.mvhd (data.getD 0 0) ((data.drop 1).take 3) (be32At data 4) (be32At data 8)
    (be32At data 12) (be32At data 16) (be32At data 20) (be16At data 24) (data.drop 26))

def decodeIods (data : List Nat) : Except GoErr BoxVal := .ok (.iods data)

def decodeTkhd (data : List Nat) : Except GoErr BoxVal :=
  .ok (.tkhd (data.getD 0 0) ((data.drop 1).take 3) (be32At data 4) (be32At data 8)
    (be32At data 12) (be32At data 20) (be16At data 32) (be16At data 34) (be16At data 36)
    ((data.drop 40).take 36) (be32At data 76) (be32At data 80))

def decodeElst (data : List Nat) : Except GoErr BoxVal :=
  .ok (.elst (data.getD 0 0) ((data.drop 1).take 3)
    ((List.range (be32At data 4)).map fun i => be32At data (8 + 12 * i))
    ((List.range (be32At data 4)).map fun i => be32At data (12 + 12 * i))
    ((List.range (be32At data 4)).map fun i => be16At data (16 + 12 * i))
    ((List.range (be32At data 4)).map fun i => be16At data (18 + 12 * i)))

/-- DecodeMdhd as a pure value (the decoder always succeeds on its ReadAll
result). -/
def mdhdVal (data : List Nat) : BoxVal :=
  .mdhd (data.getD 0 0) ((data.drop 1).take 3) (be32At data 4) (be32At data 8)
    (be32At data 12) (be32At data 16) (be16At data 20)

def decodeMdhd (data : List Nat) : Except GoErr BoxVal := .ok (mdhdVal data)

/-- DecodeHdlr as a pure value: bytes 12..23 of the body (reserved words)
are not stored anywhere. -/
def hdlrVal (data : List Nat) : BoxVal :=
  .hdlr (data.getD 0 0) ((data.drop 1).take 3) (be32At data 4) ((data.drop 8).take 4)
    (data.drop 24)

def decodeHdlr (data : List Nat) : Except GoErr BoxVal := .ok (hdlrVal data)

def decodeVmhd (data : List Nat) : Except GoErr BoxVal :=
  .ok (.vmhd (data.getD 0 0) ((data.drop 1).take 3) (be16At data 4)
    [be16At data 6, be16At data 8, be16At data 10])

def decodeSmhd (data : List Nat) : Except GoErr BoxVal :=
  .ok (.smhd (data.getD 0 0) ((data.drop 1).take 3) (be16At data 4))

def decodeDref (data : List Nat) : Except GoErr BoxVal :=
  .ok (.dref (data.getD 0 0) ((data.drop 1).take 3) (data.drop 4))

def decodeStsd (data : List Nat) : Except GoErr BoxVal :=
  .ok (.stsd (data.getD 0 0) ((data.drop 1).take 3) (data.drop 4))

def decodeMeta (data : List Nat) : Except GoErr BoxVal :=
  .ok (.meta (data.getD 0 0) ((data.drop 1).take 3) (data.drop 4))

def decodeStts (data : List Nat) : Except GoErr BoxVal :=
  .ok (.stts (data.getD 0 0) ((data.drop 1).take 3)
    ((List.range (be32At data 4)).map fun i => be32At data (8 + 8 * i))
    ((List.range (be32At data 4)).map fun i => be32At data (12 + 8 * i)))

def decodeStss (data : List Nat) : Except GoErr BoxVal :=
  .ok (.stss (data.getD 0 0) ((data.drop 1).take 3)
    ((List.range (be32At data 4)).map fun i => be32At data (8 + 4 * i)))

def decodeStsc (data : List Nat) : Except GoErr BoxVal :=
  .ok (.stsc (data.getD 0 0) ((data.drop 1).take 3)
    ((List.range (be32At data 4)).map fun i => be32At data (8 + 12 * i))
    ((List.range (be32At data 4)).map fun i => be32At data (12 + 12 * i))
    ((List.range (be32At data 4)).map fun i => be32At data (16 + 12 * i)))

def decodeStsz (data : List Nat) : Except GoErr BoxVal :=
  .ok (.stsz (data.getD 0 0) ((data.drop 1).take 3) (be32At data 4) (be32At data 8)
    (if 12 < data.length then
      (List.range (be32At data 8)).map fun i => be32At data (12 + 4 * i)
    else []))

def decodeStco (data : List Nat) : Except GoErr BoxVal :=
  .ok (.stco (data.getD 0 0) ((data.drop 1).take 3)
    ((List.range (be32At data 4)).map fun i => be32At data (8 + 4 * i)))

def decodeCtts (data : List Nat) : Except GoErr BoxVal :=
  .ok (.ctts (data.getD 0 0) ((data.drop 1).take 3)
    ((List.range (be32At data 4)).map fun i => be32At data (8 + 8 * i))
    ((List.range (be32At data 4)).map fun i => be32At data (12 + 8 * i)))

/-- Container assemblies: the Go container decoders collect children and
switch on the type; a duplicate overwrites, trak boxes append, any other
child is a BadFormat error. -/
def assembleMoov : List BoxVal → Option BoxVal → Option BoxVal → List BoxVal →
    Option BoxVal → Except GoErr BoxVal
  | [], mv, io, tr, ud => .ok (.moov mv io tr ud)
  | b :: bs, mv, io, tr, ud =>
    match b with
    | .mvhd .. => assembleMoov bs (some b) io tr ud
    | .iods .. => assembleMoov bs mv (some b) tr ud
    | .trak .. => assembleMoov bs mv io (tr ++ [b]) ud
    | .udta .. => assembleMoov bs mv io tr (some b)
    | _ => .error .badFormat

def assembleTrak : List BoxVal → Option BoxVal → Option BoxVal → Option BoxVal →
    Except GoErr BoxVal
  | [], tk, md, ed => .ok (.trak tk md ed)
  | b :: bs, tk, md, ed =>
    match b with
    | .tkhd .. => assembleTrak bs (some b) md ed
    | .mdia .. => assembleTrak bs tk (some b) ed
    | .edts .. => assembleTrak bs tk md (some b)
    | _ => .error .badFormat

def assembleEdts : List BoxVal → Option BoxVal → Except GoErr BoxVal
  | [], el => .ok (.edts el)
  | b :: bs, el =>
    match b with
    | .elst .. => assembleEdts bs (some b)
    | _ => .error .badFormat

def assembleMdia : List BoxVal → Option BoxVal → Option BoxVal → Option BoxVal →
    Except GoErr BoxVal
  | [], md, hd, mi => .ok (.mdia md hd mi)
  | b :: bs, md, hd, mi =>
    match b with
    | .mdhd .. => assembleMdia bs (some b) hd mi
    | .hdlr .. => assembleMdia bs md (some b) mi
    | .minf .. => assembleMdia bs md hd (some b)
    | _ => .error .badFormat

def assembleMinf : List BoxVal → Option BoxVal → Option BoxVal → Option BoxVal →
    Option BoxVal → Option BoxVal → Except GoErr BoxVal
  | [], vm, sm, sb, di, hd => .ok (.minf vm sm sb di hd)
  | b :: bs, vm, sm, sb, di, hd =>
    match b with
    | .vmhd .. => assembleMinf bs (some b) sm sb di hd
    | .smhd .. => assembleMinf bs vm (some b) sb di hd
    | .stbl .. => assembleMinf bs vm sm (some b) di hd
    | .dinf .. => assembleMinf bs vm sm sb (some b) hd
    | .hdlr .. => assembleMinf bs vm sm sb di (some b)
    | _ => .error .badFormat

def assembleStbl : List BoxVal → Option BoxVal → Option BoxVal → Option BoxVal →
    Option BoxVal → Option BoxVal → Option BoxVal → Option BoxVal → Except GoErr BoxVal
  | [], sd, tt, ss, sc, sz, co, ct => .ok (.stbl sd tt ss sc sz co ct)
  | b :: bs, sd, tt, ss, sc, sz, co, ct =>
    match b with
    | .stsd .. => assembleStbl bs (some b) tt ss sc sz co ct
    | .stts .. => assembleStbl bs sd (some b) ss sc sz co ct
    | .stss .. => assembleStbl bs sd tt (some b) sc sz co ct
    | .stsc .. => assembleStbl bs sd tt ss (some b) sz co ct
    | .stsz .. => assembleStbl bs sd tt ss sc (some b) co ct
    | .stco .. => assembleStbl bs sd tt ss sc sz (some b) ct
    | .ctts .. => assembleStbl bs sd tt ss sc sz co (some b)
    | _ => .error .badFormat

def assembleDinf : List BoxVal → Option BoxVal → Except GoErr BoxVal
  | [], dr => .ok (.dinf dr)
  | b :: bs, dr =>
    match b with
    | .dref .. => assembleDinf bs (some b)
    | _ => .error .badFormat

def assembleUdta : List BoxVal → Option BoxVal → Except GoErr BoxVal
  | [], mt => .ok (.udta mt)
  | b :: bs, mt =>
    match b with
    | .meta .. => assembleUdta bs (some b)
    | _ => .error .badFormat

mutual

/-- DecodeBox: a registered decoder is run over a reader limited to
size - 8 bytes computed in uint32 arithmetic (sizes 0 and 1 therefore wrap
to a huge limit and read to end of input); an unregistered type is an
UnknownBoxType error with nothing consumed.  DecodeMdat keeps the reader
and consumes nothing. -/
def decodeBox : Nat → BoxHeader → List Nat → Except GoErr (BoxVal × List Nat)
  | 0, _, _ => .error .outOfFuel
  | fuel + 1, h, bytes =>
    if h.type = mdatT then .ok (.mdat, bytes)
    else
      let limit := Mp4Clip.wsub h.size 8
      let body := bytes.take limit
      let rest := bytes.drop limit
      if h.type = ftypT then (decodeFtyp body).map fun v => (v, rest)
      else if h.type = moovT then (decodeMoov fuel body).map fun v => (v, rest)
      else if h.type = mvhdT then (decodeMvhd body).map fun v => (v, rest)
      else if h.type = iodsT then (decodeIods body).map fun v => (v, rest)
      else if h.type = trakT then (decodeTrak fuel body).map fun v => (v, rest)
      else if h.type = udtaT then (decodeUdta fuel body).map fun v => (v, rest)
      else if h.type = tkhdT then (decodeTkhd body).map fun v => (v, rest)
      else if h.type = edtsT then (decodeEdts fuel body).map fun v => (v, rest)
      else if h.type = elstT then (decodeElst body).map fun v => (v, rest)
      else if h.type = mdiaT then (decodeMdia fuel body).map fun v => (v, rest)
      else if h.type = minfT then (decodeMinf fuel body).map fun v => (v, rest)
      else if h.type = mdhdT then (decodeMdhd body).map fun v => (v, rest)
      else if h.type = hdlrT then (decodeHdlr body).map fun v => (v, rest)
      else if h.type = vmhdT then (decodeVmhd body).map fun v => (v, rest)
      else if h.type = smhdT then (decodeSmhd body).map fun v => (v, rest)
      else if h.type = dinfT then (decodeDinf fuel body).map fun v => (v, rest)
      else if h.type = drefT then (decodeDref body).map fun v => (v, rest)
      else if h.type = stblT then (decodeStbl fuel body).map fun v => (v, rest)
      else if h.type = stcoT then (decodeStco body).map fun v => (v, rest)
      else if h.type = stscT then (decodeStsc body).map fun v => (v, rest)
      else if h.type = stszT then (decodeStsz body).map fun v => (v, rest)
      else if h.type = cttsT then (decodeCtts body).map fun v => (v, rest)
      else if h.type = stsdT then (decodeStsd body).map fun v => (v, rest)
      else if h.type = sttsT then (decodeStts body).map fun v => (v, rest)
      else if h.type = stssT then (decodeStss body).map fun v => (v, rest)
      else if h.type = metaT then (decodeMeta body).map fun v => (v, rest)
      else .error .unknownBoxType

/-- DecodeContainer: headers and boxes until EOF; EOF of the limited reader
ends the container, any other error propagates. -/
def decodeContainer : Nat → List Nat → Except GoErr (List BoxVal)
  | 0, _ => .error .outOfFuel
  | fuel + 1, bytes =>
    match decodeHeader bytes with
    | .error .eof => .ok []
    | .error e => .error e
    | .ok (h, rest) =>
      match decodeBox fuel h rest with
      | .error e => .error e
      | .ok (v, rest2) =>
        match decodeContainer fuel rest2 with
        | .error e => .error e
        | .ok l => .ok (v :: l)

def decodeMoov : Nat → List Nat → Except GoErr BoxVal
  | 0, _ => .error .outOfFuel
  | fuel + 1, data =>
    match decodeContainer fuel data with
    | .error e => .error e
    | .ok l => assembleMoov l none none [] none

def decodeTrak : Nat → List Nat → Except GoErr BoxVal
  | 0, _ => .error .outOfFuel
  | fuel + 1, data =>
    match decodeContainer fuel data with
    | .error e => .error e
    | .ok l => assembleTrak l none none none

def decodeEdts : Nat → List Nat → Except GoErr BoxVal
  | 0, _ => .error .outOfFuel
  | fuel + 1, data =>
    match decodeContainer fuel data with
    | .error e => .error e
    | .ok l => assembleEdts l none

def decodeMdia : Nat → List Nat → Except GoErr BoxVal
  | 0, _ => .error .outOfFuel
  | fuel + 1, data =>
    match decodeContainer fuel data with
    | .error e => .error e
    | .ok l => assembleMdia l none none none

def decodeMinf : Nat → List Nat → Except GoErr BoxVal
  | 0, _ => .error .outOfFuel
  | fuel + 1, data =>
    match decodeContainer fuel data with
    | .error e => .error e
    | .ok l => assembleMinf l none none none none none

def decodeStbl : Nat → List Nat → Except GoErr BoxVal
  | 0, _ => .error .outOfFuel
  | fuel + 1, data =>
    match decodeContainer fuel data with
    | .error e => .error e
    | .ok l => assembleStbl l none none none none none none none

def decodeDinf : Nat → List Nat → Except GoErr BoxVal
  | 0, _ => .error .outOfFuel
  | fuel + 1, data =>
    match decodeContainer fuel data with
    | .error e => .error e
    | .ok l => assembleDinf l none

def decodeUdta : Nat → List Nat → Except GoErr BoxVal
  | 0, _ => .error .outOfFuel
  | fuel + 1, data =>
    match decodeContainer fuel data with
    | .error e => .error e
    | .ok l => assembleUdta l none

end

/-- The decoded top-level value of mp4.go Decode: ftyp, moov, and the
reader left at the mdat payload (or at EOF). -/
structure Mp4Val where
  ftyp : BoxVal
  moov : BoxVal
  mdatRest : List Nat

/-- The inter-box loop of mp4.go Decode: a header error breaks the loop and
Decode returns successfully; an mdat header stops with the reader at the
payload.  Any other box is passed to DecodeBox with the result ignored: an
unknown type consumes nothing (DecodeBox returns before creating its
limited reader); for a registered type the model treats an erroring decoder
as having consumed its declared payload (Go consumes whatever the decoder
read before failing; the leaf decoders never fail). -/
def decodeMp4Loop : Nat → List Nat → Except GoErr (List Nat)
  | 0, _ => .error .outOfFuel
  | fuel + 1, bytes =>
    match decodeHeader bytes with
    | .error _ => .ok []
    | .ok (h, rest) =>
      if h.type = mdatT then .ok rest
      else
        match decodeBox fuel h rest with
        | .ok r => decodeMp4Loop fuel r.2
        | .error .unknownBoxType => decodeMp4Loop fuel rest
        | .error _ => decodeMp4Loop fuel (rest.drop (Mp4Clip.wsub h.size 8))

/-- mp4.go Decode: ftyp, then moov (the header error of the second read is
ignored by the source, so a short read surfaces as BadFormat through the
zero header), then the inter-box loop until mdat or EOF. -/
def decodeMp4 (bytes : List Nat) : Except GoErr Mp4Val :=
  let fuel := bytes.length + 1
  match decodeHeader bytes with
  | .error e => .error e
  | .ok (h, rest) =>
    if h.type ≠ ftypT then .error .badFormat
    else
      match decodeBox fuel h rest with
      | .error e => .error e
      | .ok (fv, rest2) =>
        match decodeHeader rest2 with
        | .error _ => .error .badFormat
        | .ok (h2, rest3) =>
          if h2.type ≠ moovT then .error .badFormat
          else
            match decodeBox fuel h2 rest3 with
            | .error e => .error e
            | .ok (mv, rest4) =>
              match decodeMp4Loop fuel rest4 with
              | .error e => .error e
              | .ok rest5 => .ok { ftyp := fv, moov := mv, mdatRest := rest5 }

/-!
Encode bodies of the boxes named by the round-trip claim.  The Go Encode
methods fill a zeroed buffer of Size() - 8 bytes at fixed offsets, so the
body is the concatenation of the field images with zeros in the gaps; the
hdlr form is the one for a 4-byte handler type, which is what DecodeHdlr
produces.
-/

def zeros12 : List Nat := [0, 0, 0, 0, 0, 0, 0, 0, 0, 0, 0, 0]

/-- strtobuf into a 4-byte slot (Go copies at most the room available and
leaves the zero fill beyond the string). -/
def strtobuf4 (s : List Nat) : List Nat := s.take 4 ++ List.replicate (4 - s.length) 0

def encodeHdlrBody : BoxVal → List Nat
  | .hdlr v fl pre ht tn => [v] ++ fl ++ putBE32 pre ++ strtobuf4 ht ++ zeros12 ++ tn
  | _ => []

def encodeMdhdBody : BoxVal → List Nat
  | .mdhd v fl ct mt ts dur lang =>
    [v] ++ fl ++ putBE32 ct ++ putBE32 mt ++ putBE32 ts ++ putBE32 dur ++ putBE16 lang ++ [0, 0]
  | _ => []

/-- A 24-byte hdlr body whose reserved byte 12 is nonzero. -/
def hdlrCexBody : List Nat :=
  [0, 0, 0, 0, 0, 0, 0, 0, 118, 105, 100, 101, 1, 0, 0, 0, 0, 0, 0, 0, 0, 0, 0, 0]

/-- A minimal stream: ftyp (8-byte body), empty moov, then EOF. -/
def c3Stream : List Nat :=
  [0, 0, 0, 16] ++ ftypT ++ [105, 115, 111, 109, 0, 0, 2, 0] ++ [0, 0, 0, 8] ++ moovT

end Mp4Box


namespace Mp4Clip

/-!
Claim theorems for the clip engine.
-/

/-- Claim C1 (code bug): the stts rewrite is claimed to emit, for every run
intersecting [first_sample, last_sample], one run whose count is the
intersection length.  On the run (count 3, delta 10) with first_sample 2 and
last_sample 3, the run covers samples 1..3, so the intersection length is 2,
but the source adds sample - firstSample = -2 in uint32 arithmetic and emits
count 1. -/
theorem c1_stts_run_clip_bug :
    clipRuns 2 3 [3] [10] 0 = ([1], [10]) ∧ specRunIntersection 0 3 2 3 = 2 ∧
      (1 : Nat) ≠ 2 := by decide

/-- Claim C6 (code bug): the rewritten stss is claimed to renumber surviving
keyframes 1-based (a keyframe equal to first_sample becomes 1).  On stss
[2, 5] with first_sample 2 and last_sample 6 the source emits n - first,
giving [0, 3] instead of the claimed [1, 4]; the keyframe equal to
first_sample becomes 0. -/
theorem c6_stss_renumber_bug :
    stssClip 2 6 [2, 5] = [0, 3] ∧
      (([2, 5].filter fun n => decide (2 ≤ n) && decide (n ≤ 6)).map fun n => n - 2 + 1)
        = [1, 4] ∧ ([0, 3] : List Nat) ≠ [1, 4] := by decide

/-- Claim C10 (code bug): sample-size lookups during chunk-list construction
are claimed to stay inside the per-sample table.  The engine's running index
starts at 0 and GetSampleSize(0) reads SampleSize[-1], out of range (a Go
panic): on the table [10, 20, 30] the Option-returning read yields none for
the very first lookup of the first chunk. -/
theorem c10_sample_size_oob :
    getSampleSizeOpt { sampleUniformSize := 0, sampleNumber := 3, sampleSize := [10, 20, 30] } 0
        = none ∧
      chunkSizesOpt { sampleUniformSize := 0, sampleNumber := 3, sampleSize := [10, 20, 30] } 0 3
        = none := by decide

/-- Claim C4 (code bug): after FilterMoov on M1 with Clip(1, 1) the three
sample counts are claimed equal, but the rewritten stts counts sum to 2
while the stsz table keeps 3 sizes and the rebuilt stsc implies 3 samples
over the single retained chunk. -/
theorem c4_sample_count_closure_bug :
    ((filterMoov 1 1 M1).map fun r =>
        r.moov.trak.map fun t =>
          (t.mdia.minf.stbl.stts.sampleCount.sum,
           t.mdia.minf.stbl.stsz.sampleSize.length,
           stscImplied t.mdia.minf.stbl.stco.chunkOffset.length
             t.mdia.minf.stbl.stsc.firstChunk t.mdia.minf.stbl.stsc.samplesPerChunk))
      = .ok [(2, 3, 3)] ∧ (2 : Nat) ≠ 3 := ⟨rfl, by decide⟩

/-- Claim C7 counterexample: on M2 with Clip(3, 1) the first chunk (offset
100) is skipped and the second (offset 200) is the first retained chunk; the
moov shrinks by 12 bytes, so the claim predicts stco offset 200 - 12 = 188,
but the source latches the base onto the globally first chunk, skipped or
not, and stores 100 - 12 = 88. -/
theorem c7_first_offset_cex :
    ((filterMoov 3 1 M2).map fun r =>
        (r.moov.trak.map fun t => t.mdia.minf.stbl.stco.chunkOffset,
         (moovSize r.moov : Int) - (moovSize M2 : Int),
         r.chunks.map fun c => (c.oldOffset, c.skip)))
      = .ok ([[88]], -12, [(100, true), (200, false)]) ∧
      wrapInt ((200 : Int) + (-12)) = 188 ∧ (88 : Nat) ≠ 188 := ⟨rfl, by decide, by decide⟩

/-- Integer-division fact used for the clip boundary checks: begin * 1s
exceeds the movie duration in nanoseconds exactly when begin exceeds the
movie duration in whole seconds. -/
theorem clampNsLt (b D T : Nat) (hT : 0 < T) :
    1000000000 * D / T < b * 1000000000 ↔ D / T < b := by
  have hmod : D % T < T := Nat.mod_lt D hT
  have hsplit : T * (D / T) + D % T = D := Nat.div_add_mod D T
  have h1 : 1000000000 * D / T = 1000000000 * (D / T) + 1000000000 * (D % T) / T := by
    conv_lhs => rw [← hsplit]
    rw [Nat.mul_add, show 1000000000 * (T * (D / T)) = T * (1000000000 * (D / T)) by ring,
      Nat.mul_add_div hT]
  have h2 : 1000000000 * (D % T) / T < 1000000000 := by
    apply Nat.div_lt_of_lt_mul
    calc 1000000000 * (D % T) < 1000000000 * T := by
          exact (mul_lt_mul_left (by norm_num)).mpr hmod
      _ = T * 1000000000 := by ring
  have key : ∀ x y q : Nat, x = 1000000000 * q + y → y < 1000000000 →
      (x < b * 1000000000 ↔ q < b) := by
    intro x y q e hy
    omega
  exact key _ _ _ h1 h2

/-- Claim C5: Clip followed by FilterMoov errors with ClipOutside exactly
when begin is negative or begin exceeds the movie duration in seconds;
otherwise it succeeds, and the clip end is clamped to the movie duration
whenever begin + duration exceeds it or duration is 0.  The two range
hypotheses only record that the Go int64 time arithmetic does not overflow
for these inputs. -/
theorem c5_clip_bounds (beginSec durationSec : Int) (m : MoovBox)
    (hT : 0 < m.mvhd.timescale)
    (hbRange : beginSec ≤ 2147483648) (hdRange : durationSec ≤ 2147483648) :
    (filterMoov beginSec durationSec m = .error .clipOutside ↔
      beginSec < 0 ∨ ((m.mvhd.duration / m.mvhd.timescale : Nat) : Int) < beginSec) ∧
    (¬(beginSec < 0 ∨ ((m.mvhd.duration / m.mvhd.timescale : Nat) : Int) < beginSec) →
      ∃ r, filterMoov beginSec durationSec m = .ok r ∧
        r.endNs =
          if ((m.mvhd.duration / m.mvhd.timescale : Nat) : Int) < beginSec + durationSec ∨
              durationSec = 0
          then ((movieDurNs m : Nat) : Int)
          else (beginSec + durationSec) * 1000000000) := by
  by_cases hneg : beginSec < 0
  · constructor
    · simp [filterMoov, hneg]
    · intro hcon
      exact absurd (Or.inl hneg) hcon
  · push_neg at hneg
    obtain ⟨b, rfl⟩ := Int.eq_ofNat_of_zero_le hneg
    have h0 : ¬((b : Int) < 0) := not_lt.mpr (Int.natCast_nonneg b)
    have hkey : ∀ x : Nat, ((movieDurNs m : Nat) : Int) < (x : Int) * 1000000000 ↔
        ((m.mvhd.duration / m.mvhd.timescale : Nat) : Int) < (x : Int) := by
      intro x
      rw [show ((x : Int) * 1000000000) = ((x * 1000000000 : Nat) : Int) by push_cast; ring,
        Nat.cast_lt, Nat.cast_lt]
      exact clampNsLt x m.mvhd.duration m.mvhd.timescale hT
    by_cases hout : ((movieDurNs m : Nat) : Int) < (b : Int) * 1000000000
    · have hRHS : ((m.mvhd.duration / m.mvhd.timescale : Nat) : Int) < (b : Int) :=
        (hkey b).mp hout
      constructor
      · simp only [filterMoov, h0, if_false, hout, if_true]
        simp
        exact_mod_cast hRHS
      · intro hcon
        exact absurd (Or.inr hRHS) hcon
    · have hRHSf : ¬((m.mvhd.duration / m.mvhd.timescale : Nat) : Int) < (b : Int) :=
        fun hh => hout ((hkey b).mpr hh)
      constructor
      · simp only [filterMoov, h0, if_false, hout, if_true]
        simp
        exact_mod_cast not_lt.mp hRHSf
      · intro _
        have hcond : (((movieDurNs m : Nat) : Int) < ((b : Int) + durationSec) * 1000000000 ∨
            ((b : Int) + durationSec) * 1000000000 = (b : Int) * 1000000000) ↔
            (((m.mvhd.duration / m.mvhd.timescale : Nat) : Int) < (b : Int) + durationSec ∨
              durationSec = 0) := by
          apply or_congr
          · rcases le_or_lt 0 ((b : Int) + durationSec) with hpos | hneg2
            · obtain ⟨x, hx⟩ := Int.eq_ofNat_of_zero_le hpos
              rw [hx]
              exact hkey x
            · have hm0 : (0 : Int) ≤ ((movieDurNs m : Nat) : Int) := Int.natCast_nonneg _
              have hq0 : (0 : Int) ≤ ((m.mvhd.duration / m.mvhd.timescale : Nat) : Int) :=
                Int.natCast_nonneg _
              have hprod : ((b : Int) + durationSec) * 1000000000 < 0 :=
                mul_neg_of_neg_of_pos hneg2 (by norm_num)
              constructor
              · intro hh
                omega
              · intro hh
                omega
          · have hexp : ((b : Int) + durationSec) * 1000000000 =
                (b : Int) * 1000000000 + durationSec * 1000000000 := by ring
            constructor
            · intro hh
              omega
            · intro hh
              omega
        simp only [filterMoov, if_neg h0, if_neg hout]
        refine ⟨_, rfl, ?_⟩
        show (if ((movieDurNs m : Nat) : Int) < ((b : Int) + durationSec) * 1000000000 ∨
                ((b : Int) + durationSec) * 1000000000 = (b : Int) * 1000000000
              then ((movieDurNs m : Nat) : Int)
              else ((b : Int) + durationSec) * 1000000000) = _
        exact if_congr hcond rfl rfl

/-- Claim C5 witness: the bounds theorem applied to the concrete movie M1
with Clip(1, 1). -/
theorem c5_clip_bounds_witness :
    (filterMoov 1 1 M1 = .error .clipOutside ↔
      (1 : Int) < 0 ∨ ((M1.mvhd.duration / M1.mvhd.timescale : Nat) : Int) < 1) ∧
    (¬((1 : Int) < 0 ∨ ((M1.mvhd.duration / M1.mvhd.timescale : Nat) : Int) < 1) →
      ∃ r, filterMoov 1 1 M1 = .ok r ∧
        r.endNs =
          if ((M1.mvhd.duration / M1.mvhd.timescale : Nat) : Int) < 1 + 1 ∨ (1 : Int) = 0
          then ((movieDurNs M1 : Nat) : Int) else (1 + 1) * 1000000000) :=
  c5_clip_bounds 1 1 M1 (by decide) (by decide) (by decide)

/-- Claim C8 counterexample: on M2 with Clip(0, 4) both chunks survive with
firstTC 0 and 2s; min firstTC is 0 and max lastTC is 4s, so the claim
predicts mdhd duration (4s - 0) * 1 / 1s = 4, but the duration fold treats
the accumulator value 0 as unset, latches start onto the second chunk's 2s,
and stores 2. -/
theorem c8_duration_cex :
    ((filterMoov 0 4 M2).map fun r =>
        (r.moov.trak.map fun t => t.mdia.mdhd.duration,
         wrap32 ((maxLastTC (retainedOfTrack r.chunks 0) -
            minFirstTC (retainedOfTrack r.chunks 0)) * 1 / 1000000000)))
      = .ok ([2], 4) ∧ (2 : Nat) ≠ 4 := ⟨rfl, by decide⟩

/-- Helper: the uint32 conversion of an int is below 2^32. -/
theorem wrapInt_lt (x : Int) : wrapInt x < 4294967296 := by
  simp only [wrapInt]
  omega

/-- Helper: once the base offset has latched onto a nonzero value F, the
offset-assignment loop distributes, to each track, the offsets of its
retained chunks packed contiguously from F, and returns the wrapped running
sum of the retained chunk sizes. -/
theorem updOffsetsLoopLatch (delta : Int) (F : Nat) (hF : F ≠ 0) :
    ∀ (cs : List Chunk) (sz : Nat) (acc : Nat → List Nat), sz < 4294967296 →
      updateChunkOffsetsLoop delta cs F sz acc =
        (fun t => acc t ++ (((specAssign F cs sz).filter fun p => p.1 = t).map fun p => p.2),
         wrap32 (sz + (((cs.filter fun c => !c.skip).map chunkSize).sum))) := by
  intro cs
  induction cs with
  | nil =>
    intro sz acc hsz
    simp [updateChunkOffsetsLoop, specAssign, wrap32, Nat.mod_eq_of_lt hsz]
  | cons c cs ih =>
    intro sz acc hsz
    by_cases hskip : c.skip
    · simp only [updateChunkOffsetsLoop, if_neg hF, if_pos hskip, specAssign]
      rw [ih sz acc hsz]
      simp [hskip]
    · simp only [updateChunkOffsetsLoop, if_neg hF, if_neg hskip, specAssign]
      rw [ih (wadd sz (chunkSize c))
        (fun t => if t = c.track then acc t ++ [wadd F sz] else acc t)
        (Nat.mod_lt _ (by norm_num))]
      simp only [Prod.mk.injEq]
      constructor
      · funext t
        simp only [List.filter_cons, List.map_cons]
        by_cases ht : c.track = t
        · subst ht
          simp [List.append_assoc]
        · have ht2 : ¬(t = c.track) := fun hh => ht hh.symm
          simp [ht, ht2]
      · have hfil : (c :: cs).filter (fun c => !c.skip) = c :: cs.filter fun c => !c.skip := by
          simp [hskip]
        rw [hfil]
        simp only [List.map_cons, List.sum_cons, wadd, wrap32]
        rw [Nat.mod_add_mod, Nat.add_assoc]

/-- Claim C7 (amended): the base offset latches onto the globally first
chunk of the sorted list, skipped or not: with F = that chunk's oldOffset
plus the moov size delta (as uint32), every track's rebuilt stco lists the
offsets of its retained chunks packed contiguously from F (each retained
chunk receives F plus the running size of the retained chunks before it in
the global order, so each one is the previous retained offset plus the
previous retained size), and the returned mdat size is the uint32 sum of
the retained chunk sizes.  The hypothesis records that the latched base is
nonzero, since a zero base would be recomputed at the next chunk. -/
theorem c7_offsets_amended (delta : Int) (c0 : Chunk) (cs : List Chunk)
    (hF : wrapInt ((c0.oldOffset : Int) + delta) ≠ 0) :
    updateChunkOffsetsLoop delta (c0 :: cs) 0 0 (fun _ => []) =
      (fun t => (((specAssign (wrapInt ((c0.oldOffset : Int) + delta)) (c0 :: cs) 0).filter
          fun p => p.1 = t).map fun p => p.2),
       wrap32 ((((c0 :: cs).filter fun c => !c.skip).map chunkSize).sum)) := by
  have hbridge : updateChunkOffsetsLoop delta (c0 :: cs) 0 0 (fun _ => []) =
      updateChunkOffsetsLoop delta (c0 :: cs) (wrapInt ((c0.oldOffset : Int) + delta)) 0
        (fun _ => []) := by
    simp [updateChunkOffsetsLoop, hF]
  rw [hbridge,
    updOffsetsLoopLatch delta (wrapInt ((c0.oldOffset : Int) + delta)) hF (c0 :: cs) 0 _
      (by norm_num)]
  simp only [Prod.mk.injEq]
  constructor
  · funext t
    simp
  · simp

/-- Claim C7 witness: the amended offset theorem applied to a single
retained chunk at offset 100 with delta 0. -/
theorem c7_offsets_amended_witness :
    updateChunkOffsetsLoop 0 [chunkA] 0 0 (fun _ => []) =
      (fun t => (((specAssign (wrapInt ((chunkA.oldOffset : Int) + 0)) [chunkA] 0).filter
          fun p => p.1 = t).map fun p => p.2),
       wrap32 (((([chunkA].filter fun c => !c.skip).map chunkSize).sum))) :=
  c7_offsets_amended 0 chunkA [] (by decide)

/-- Helper: the end-of-track fold of updateDurations computes the maximum
lastTC over the track's retained chunks, for any accumulator. -/
theorem durEnd_eq_max : ∀ (cs : List Chunk) (tnum : Nat) (e : Nat),
    durEnd cs tnum e = ((retainedOfTrack cs tnum).map fun c => c.lastTC).foldl max e := by
  intro cs
  induction cs with
  | nil =>
    intro tnum e
    simp [durEnd, retainedOfTrack]
  | cons c cs ih =>
    intro tnum e
    by_cases h1 : c.track = tnum
    · by_cases h2 : c.skip
      · simp [durEnd, retainedOfTrack, h1, h2, ih]
      · have hup : (if e = 0 ∨ e < c.lastTC then c.lastTC else e) = max e c.lastTC := by
          split_ifs with hh
          · rcases hh with hh | hh
            · omega
            · omega
          · omega
        simp only [durEnd, h1, h2, retainedOfTrack, List.filter_cons]
        simp only [retainedOfTrack] at ih
        simp [h1, h2, ih, hup]
    · simp [durEnd, retainedOfTrack, h1, ih]

/-- Helper: with a positive accumulator and positive firstTC values, the
start-of-track fold computes the running minimum. -/
theorem durStart_pos : ∀ (cs : List Chunk) (tnum : Nat) (s : Nat), 0 < s →
    (∀ c ∈ retainedOfTrack cs tnum, 0 < c.firstTC) →
    durStart cs tnum s = ((retainedOfTrack cs tnum).map fun c => c.firstTC).foldl min s := by
  intro cs
  induction cs with
  | nil =>
    intro tnum s hs hpos
    simp [durStart, retainedOfTrack]
  | cons c cs ih =>
    intro tnum s hs hpos
    by_cases h1 : c.track = tnum
    · by_cases h2 : c.skip
      · have hR : retainedOfTrack (c :: cs) tnum = retainedOfTrack cs tnum := by
          simp [retainedOfTrack, h2]
        have hpos2 : ∀ x ∈ retainedOfTrack cs tnum, 0 < x.firstTC := by
          intro x hx
          exact hpos x (by rw [hR]; exact hx)
        rw [show durStart (c :: cs) tnum s = durStart cs tnum s by simp [durStart, h1, h2]]
        rw [ih tnum s hs hpos2, hR]
      · have hR : retainedOfTrack (c :: cs) tnum = c :: retainedOfTrack cs tnum := by
          simp [retainedOfTrack, h1, h2]
        have hcpos : 0 < c.firstTC := hpos c (by rw [hR]; exact List.mem_cons_self c _)
        have hpos2 : ∀ x ∈ retainedOfTrack cs tnum, 0 < x.firstTC := by
          intro x hx
          exact hpos x (by rw [hR]; exact List.mem_cons_of_mem c hx)
        have hup : (if s = 0 ∨ c.firstTC < s then c.firstTC else s) = min s c.firstTC := by
          split_ifs <;> omega
        have hstep : durStart (c :: cs) tnum s = durStart cs tnum (min s c.firstTC) := by
          simp only [durStart]
          rw [if_neg (by simp [h1, h2]), hup]
        rw [hstep, ih tnum (min s c.firstTC) (by omega) hpos2, hR]
        simp
    · have hR : retainedOfTrack (c :: cs) tnum = retainedOfTrack cs tnum := by
        simp [retainedOfTrack, h1]
      have hpos2 : ∀ x ∈ retainedOfTrack cs tnum, 0 < x.firstTC := by
        intro x hx
        exact hpos x (by rw [hR]; exact hx)
      rw [show durStart (c :: cs) tnum s = durStart cs tnum s by simp [durStart, h1]]
      rw [ih tnum s hs hpos2, hR]

/-- Helper: from the 0 accumulator the start fold yields the minimum
firstTC over the track's retained chunks (0 when there are none), provided
every retained firstTC is positive. -/
theorem durStart_zero : ∀ (cs : List Chunk) (tnum : Nat),
    (∀ c ∈ retainedOfTrack cs tnum, 0 < c.firstTC) →
    durStart cs tnum 0 = minFirstTC (retainedOfTrack cs tnum) := by
  intro cs
  induction cs with
  | nil =>
    intro tnum _
    simp [durStart, retainedOfTrack, minFirstTC]
  | cons c cs ih =>
    intro tnum hpos
    by_cases h1 : c.track = tnum
    · by_cases h2 : c.skip
      · have hR : retainedOfTrack (c :: cs) tnum = retainedOfTrack cs tnum := by
          simp [retainedOfTrack, h2]
        have hpos2 : ∀ x ∈ retainedOfTrack cs tnum, 0 < x.firstTC := by
          intro x hx
          exact hpos x (by rw [hR]; exact hx)
        rw [show durStart (c :: cs) tnum 0 = durStart cs tnum 0 by simp [durStart, h1, h2]]
        rw [ih tnum hpos2, hR]
      · have hR : retainedOfTrack (c :: cs) tnum = c :: retainedOfTrack cs tnum := by
          simp [retainedOfTrack, h1, h2]
        have hcpos : 0 < c.firstTC := hpos c (by rw [hR]; exact List.mem_cons_self c _)
        have hpos2 : ∀ x ∈ retainedOfTrack cs tnum, 0 < x.firstTC := by
          intro x hx
          exact hpos x (by rw [hR]; exact List.mem_cons_of_mem c hx)
        have hstep : durStart (c :: cs) tnum 0 = durStart cs tnum c.firstTC := by
          simp only [durStart]
          rw [if_neg (by simp [h1, h2])]
          simp
        rw [hstep, durStart_pos cs tnum c.firstTC hcpos hpos2, hR, minFirstTC]
    · have hR : retainedOfTrack (c :: cs) tnum = retainedOfTrack cs tnum := by
        simp [retainedOfTrack, h1]
      have hpos2 : ∀ x ∈ retainedOfTrack cs tnum, 0 < x.firstTC := by
        intro x hx
        exact hpos x (by rw [hR]; exact hx)
      rw [show durStart (c :: cs) tnum 0 = durStart cs tnum 0 by simp [durStart, h1]]
      rw [ih tnum hpos2, hR]

/-- Helper: the i-th track after the duration-update loop is the i-th input
track with its durations set for track number tnum + i. -/
theorem updateDurationsLoop_getD (mv : Nat) (chunks : List Chunk) (t0 : TrakBox) :
    ∀ (ts : List TrakBox) (tnum acc i : Nat), i < ts.length →
      (updateDurationsLoop mv chunks ts tnum acc).1.getD i t0 =
        trakSetDurations mv chunks (tnum + i) (ts.getD i t0) := by
  intro ts
  induction ts with
  | nil =>
    intro tnum acc i h
    simp at h
  | cons t ts ih =>
    intro tnum acc i h
    match i with
    | 0 => simp [updateDurationsLoop]
    | i + 1 =>
      have hlen : i < ts.length := by
        simpa using h
      simp only [updateDurationsLoop, List.getD_cons_succ]
      rw [ih (tnum + 1) _ i hlen, show tnum + (i + 1) = tnum + 1 + i by omega]

/-- Helper: the movie duration accumulated by the duration-update loop is
the maximum of the rewritten track durations over the accumulator. -/
theorem updateDurationsLoop_max (mv : Nat) (chunks : List Chunk) :
    ∀ (ts : List TrakBox) (tnum acc : Nat),
      (updateDurationsLoop mv chunks ts tnum acc).2 =
        ((updateDurationsLoop mv chunks ts tnum acc).1.map fun t => t.tkhd.duration).foldl
          max acc := by
  intro ts
  induction ts with
  | nil =>
    intro tnum acc
    simp [updateDurationsLoop]
  | cons t ts ih =>
    intro tnum acc
    simp only [updateDurationsLoop, List.map_cons, List.foldl_cons]
    rw [ih]
    congr 1
    split_ifs <;> omega

/-- Claim C8 (amended): after updateDurations, provided every retained
chunk of track i has positive firstTC (so the 0-means-unset start fold is
the true minimum; the track whose first chunk at media time 0 survives is
exactly the corrected counterexample case), the stored mdhd and tkhd
durations are (max lastTC - min firstTC) scaled by the respective
timescales over 1s, and mvhd duration is the maximum of the rewritten tkhd
durations over all tracks (the mvhd part needs no hypothesis). -/
theorem c8_durations_amended (m : MoovBox) (chunks : List Chunk) (i : Nat) (t0 : TrakBox)
    (hi : i < m.trak.length)
    (hpos : ∀ c ∈ retainedOfTrack chunks i, 0 < c.firstTC) :
    ((updateDurations m chunks).trak.getD i t0).mdia.mdhd.duration =
      wrap32 ((maxLastTC (retainedOfTrack chunks i) - minFirstTC (retainedOfTrack chunks i)) *
        (m.trak.getD i t0).mdia.mdhd.timescale / 1000000000) ∧
    ((updateDurations m chunks).trak.getD i t0).tkhd.duration =
      wrap32 ((maxLastTC (retainedOfTrack chunks i) - minFirstTC (retainedOfTrack chunks i)) *
        m.mvhd.timescale / 1000000000) ∧
    (updateDurations m chunks).mvhd.duration =
      ((updateDurations m chunks).trak.map fun t => t.tkhd.duration).foldl max 0 := by
  have hstart : durStart chunks i 0 = minFirstTC (retainedOfTrack chunks i) :=
    durStart_zero chunks i hpos
  have hend : durEnd chunks i 0 = maxLastTC (retainedOfTrack chunks i) := by
    rw [durEnd_eq_max]
    rfl
  have hget : (updateDurationsLoop m.mvhd.timescale chunks m.trak 0 0).1.getD i t0 =
      trakSetDurations m.mvhd.timescale chunks i (m.trak.getD i t0) := by
    rw [updateDurationsLoop_getD m.mvhd.timescale chunks t0 m.trak 0 0 i hi]
    simp
  refine ⟨?_, ?_, ?_⟩
  · simp only [updateDurations, hget, trakSetDurations]
    rw [hstart, hend]
  · simp only [updateDurations, hget, trakSetDurations]
    rw [hstart, hend]
  · simp only [updateDurations]
    exact updateDurationsLoop_max m.mvhd.timescale chunks m.trak 0 0

/-- Claim C8 witness: the amended duration theorem applied to M1 with a
single retained chunk whose firstTC is 5. -/
theorem c8_durations_amended_witness :
    ((updateDurations M1 [chunkB]).trak.getD 0 trakA).mdia.mdhd.duration =
      wrap32 ((maxLastTC (retainedOfTrack [chunkB] 0) - minFirstTC (retainedOfTrack [chunkB] 0)) *
        (M1.trak.getD 0 trakA).mdia.mdhd.timescale / 1000000000) ∧
    ((updateDurations M1 [chunkB]).trak.getD 0 trakA).tkhd.duration =
      wrap32 ((maxLastTC (retainedOfTrack [chunkB] 0) - minFirstTC (retainedOfTrack [chunkB] 0)) *
        M1.mvhd.timescale / 1000000000) ∧
    (updateDurations M1 [chunkB]).mvhd.duration =
      ((updateDurations M1 [chunkB]).trak.map fun t => t.tkhd.duration).foldl max 0 :=
  c8_durations_amended M1 [chunkB] 0 trakA (by decide) (by decide)

end Mp4Clip

namespace Mp4Box

/-- Helper: writing back the big-endian u32 value read from four bytes
reproduces those bytes. -/
theorem putBE32_be32 (a b c d : Nat) (ha : a < 256) (hb : b < 256) (hc : c < 256)
    (hd : d < 256) :
    putBE32 (a * 16777216 + b * 65536 + c * 256 + d) = [a, b, c, d] := by
  simp only [putBE32, List.cons.injEq, and_true]
  omega

/-- Helper: writing back the big-endian u16 value read from two bytes
reproduces those bytes. -/
theorem putBE16_be16 (a b : Nat) (ha : a < 256) (hb : b < 256) :
    putBE16 (a * 256 + b) = [a, b] := by
  simp only [putBE16, List.cons.injEq, and_true]
  omega

/-- Claim C2 counterexample: decoding a 24-byte hdlr body whose reserved
byte 12 is 1 and re-encoding it does not reproduce the body: DecodeHdlr
drops body bytes 12..23 and Encode re-emits them as zero. -/
theorem c2_hdlr_roundtrip_cex : encodeHdlrBody (hdlrVal hdlrCexBody) ≠ hdlrCexBody := by
  decide

/-- Claim C2 (amended): Encode reproduces a decoded box's original body
bytes except for the fields the decoder drops, which are re-emitted as
zero: for hdlr the reserved bytes 12..23, for mdhd (24-byte body) the
trailing two bytes.  When those bytes are zero in the input the round trip
is byte-exact. -/
theorem c2_roundtrip_amended :
    (∀ (v0 v1 v2 v3 p0 p1 p2 p3 h0 h1 h2 h3 : Nat) (t : List Nat),
      p0 < 256 → p1 < 256 → p2 < 256 → p3 < 256 →
      encodeHdlrBody (hdlrVal
          ([v0, v1, v2, v3, p0, p1, p2, p3, h0, h1, h2, h3] ++ zeros12 ++ t)) =
        [v0, v1, v2, v3, p0, p1, p2, p3, h0, h1, h2, h3] ++ zeros12 ++ t) ∧
    (∀ (v0 v1 v2 v3 c0 c1 c2 c3 m0 m1 m2 m3 s0 s1 s2 s3 d0 d1 d2 d3 l0 l1 : Nat),
      c0 < 256 → c1 < 256 → c2 < 256 → c3 < 256 →
      m0 < 256 → m1 < 256 → m2 < 256 → m3 < 256 →
      s0 < 256 → s1 < 256 → s2 < 256 → s3 < 256 →
      d0 < 256 → d1 < 256 → d2 < 256 → d3 < 256 →
      l0 < 256 → l1 < 256 →
      encodeMdhdBody (mdhdVal
          [v0, v1, v2, v3, c0, c1, c2, c3, m0, m1, m2, m3, s0, s1, s2, s3,
           d0, d1, d2, d3, l0, l1, 0, 0]) =
        [v0, v1, v2, v3, c0, c1, c2, c3, m0, m1, m2, m3, s0, s1, s2, s3,
         d0, d1, d2, d3, l0, l1, 0, 0]) := by
  constructor
  · intro v0 v1 v2 v3 p0 p1 p2 p3 h0 h1 h2 h3 t hp0 hp1 hp2 hp3
    show encodeHdlrBody (.hdlr v0 [v1, v2, v3]
        (p0 * 16777216 + p1 * 65536 + p2 * 256 + p3) [h0, h1, h2, h3] t) = _
    simp only [encodeHdlrBody, strtobuf4]
    rw [putBE32_be32 p0 p1 p2 p3 hp0 hp1 hp2 hp3]
    simp [zeros12]
  · intro v0 v1 v2 v3 c0 c1 c2 c3 m0 m1 m2 m3 s0 s1 s2 s3 d0 d1 d2 d3 l0 l1
      hc0 hc1 hc2 hc3 hm0 hm1 hm2 hm3 hs0 hs1 hs2 hs3 hd0 hd1 hd2 hd3 hl0 hl1
    show encodeMdhdBody (.mdhd v0 [v1, v2, v3]
        (c0 * 16777216 + c1 * 65536 + c2 * 256 + c3)
        (m0 * 16777216 + m1 * 65536 + m2 * 256 + m3)
        (s0 * 16777216 + s1 * 65536 + s2 * 256 + s3)
        (d0 * 16777216 + d1 * 65536 + d2 * 256 + d3)
        (l0 * 256 + l1)) = _
    simp only [encodeMdhdBody]
    rw [putBE32_be32 c0 c1 c2 c3 hc0 hc1 hc2 hc3,
      putBE32_be32 m0 m1 m2 m3 hm0 hm1 hm2 hm3,
      putBE32_be32 s0 s1 s2 s3 hs0 hs1 hs2 hs3,
      putBE32_be32 d0 d1 d2 d3 hd0 hd1 hd2 hd3,
      putBE16_be16 l0 l1 hl0 hl1]
    simp

/-- Claim C2 witness: both round trips at concrete bytes (hdlr with handler
type vide and a 2-byte track name; mdhd with timescale 1000 and duration
2000). -/
theorem c2_roundtrip_amended_witness :
    encodeHdlrBody (hdlrVal
        ([0, 0, 0, 0, 0, 0, 0, 1, 118, 105, 100, 101] ++ zeros12 ++ [86, 0])) =
      [0, 0, 0, 0, 0, 0, 0, 1, 118, 105, 100, 101] ++ zeros12 ++ [86, 0] ∧
    encodeMdhdBody (mdhdVal
        [0, 0, 0, 0, 0, 0, 0, 1, 0, 0, 0, 2, 0, 0, 3, 232, 0, 0, 7, 208,
         85, 196, 0, 0]) =
      [0, 0, 0, 0, 0, 0, 0, 1, 0, 0, 0, 2, 0, 0, 3, 232, 0, 0, 7, 208,
       85, 196, 0, 0] :=
  ⟨c2_roundtrip_amended.1 0 0 0 0 0 0 0 1 118 105 100 101 [86, 0]
      (by decide) (by decide) (by decide) (by decide),
    c2_roundtrip_amended.2 0 0 0 0 0 0 0 1 0 0 0 2 0 0 3 232 0 0 7 208 85 196
      (by decide) (by decide) (by decide) (by decide) (by decide) (by decide)
      (by decide) (by decide) (by decide) (by decide) (by decide) (by decide)
      (by decide) (by decide) (by decide) (by decide) (by decide) (by decide)⟩

/-- Claim C3 counterexample: on a stream that ends right after ftyp and an
empty moov, Decode returns a successfully decoded value (the loop breaks on
the header read error and the source returns the MP4 with the reader at
EOF); it does not fail, and no MissingMdat error exists in the source. -/
theorem c3_eof_decode_ok_cex :
    decodeMp4 c3Stream =
      .ok { ftyp := .ftyp [105, 115, 111, 109] [0, 0, 2, 0] [],
            moov := .moov none none [] none, mdatRest := [] } := rfl

/-- Claim C3 (amended): when the input reaches EOF after a well-formed ftyp
and moov and before any mdat header, Decode returns successfully with the
decoded ftyp and moov and an exhausted reader, for every choice of the 8
ftyp body bytes. -/
theorem c3_eof_decode_ok (a b c d e f g h : Nat) :
    decodeMp4 ([0, 0, 0, 16] ++ ftypT ++ [a, b, c, d, e, f, g, h] ++ [0, 0, 0, 8] ++ moovT) =
      .ok { ftyp := .ftyp [a, b, c, d] [e, f, g, h] [],
            moov := .moov none none [] none, mdatRest := [] } := rfl

/-- Claim C9 counterexample: a header with size field 1 is returned as an
ordinary header (no error), and DecodeBox on a size-0 ftyp header decodes
the following 8 bytes successfully; no UnsupportedBoxSize error exists and
decoding proceeds rather than failing. -/
theorem c9_size_zero_cex :
    decodeHeader ([0, 0, 0, 1] ++ ftypT) = .ok ({ type := ftypT, size := 1 }, []) ∧
    decodeBox 1 { type := ftypT, size := 0 } [97, 98, 99, 100, 101, 102, 103, 104] =
      .ok (.ftyp [97, 98, 99, 100] [101, 102, 103, 104] [], []) := ⟨rfl, rfl⟩

/-- Claim C9 (amended): size fields 0 and 1 are not rejected: DecodeHeader
returns them unchanged for any type code and trailing bytes, the payload
limit size - 8 is computed in uint32 arithmetic and wraps to 4294967288 or
4294967289 (effectively read to end of input), and DecodeBox then decodes
the available payload normally. -/
theorem c9_size_amended :
    (∀ (t0 t1 t2 t3 : Nat) (rest : List Nat),
      decodeHeader ([0, 0, 0, 0] ++ [t0, t1, t2, t3] ++ rest) =
        .ok ({ type := [t0, t1, t2, t3], size := 0 }, rest) ∧
      decodeHeader ([0, 0, 0, 1] ++ [t0, t1, t2, t3] ++ rest) =
        .ok ({ type := [t0, t1, t2, t3], size := 1 }, rest)) ∧
    Mp4Clip.wsub 0 8 = 4294967288 ∧ Mp4Clip.wsub 1 8 = 4294967289 ∧
    (∀ (a b c d e f g h : Nat),
      decodeBox 1 { type := ftypT, size := 0 } [a, b, c, d, e, f, g, h] =
        .ok (.ftyp [a, b, c, d] [e, f, g, h] [], [])) :=
  ⟨fun _ _ _ _ _ => ⟨rfl, rfl⟩, rfl, rfl, fun _ _ _ _ _ _ _ _ => rfl⟩

end Mp4Box
